import Mathlib

/- Verification development for the garminexport backup core: a shallow embedding
of backup.py (filename convention, reconciliation, download orchestration),
retryer.py (delay / stop / error strategies and the retry loop) and the
require_session guard of garminclient.py, together with theorems settling the
frozen claims about those components. -/

/- ### Decimal rendering (Python str(int) / zero padding) -/

/-- Character for a single decimal digit value (0-9). -/
def digitChar : Nat → Char
  | 0 => '0' | 1 => '1' | 2 => '2' | 3 => '3' | 4 => '4'
  | 5 => '5' | 6 => '6' | 7 => '7' | 8 => '8' | 9 => '9'
  | _ => '*'

/-- Value of a decimal digit character; inverse of digitChar on 0-9. -/
def charToDigit : Char → Nat
  | '1' => 1 | '2' => 2 | '3' => 3 | '4' => 4 | '5' => 5
  | '6' => 6 | '7' => 7 | '8' => 8 | '9' => 9 | _ => 0

/-- Worker for decimal rendering: most significant digit first, by repeated
division by 10; structural on a fuel argument so that it reduces. -/
def natToCharsAux : Nat → Nat → List Char
  | _, 0 => []
  | 0, _ + 1 => []
  | fuel + 1, n + 1 => natToCharsAux fuel ((n + 1) / 10) ++ [digitChar ((n + 1) % 10)]

/-- Decimal rendering of a natural number as a character list, most significant
digit first, exactly as Python str(n) renders a non-negative int. -/
def natToChars (n : Nat) : List Char :=
  if n = 0 then ['0'] else natToCharsAux n n

/-- Decimal rendering of a natural number as a string (Python str(n)). -/
def natToStr (n : Nat) : String := String.mk (natToChars n)

/-- Reads a decimal digit character list back into a number (left fold). -/
def charsToNat (l : List Char) : Nat :=
  l.foldl (fun acc c => 10 * acc + charToDigit c) 0

/-- Python str.strip over a character list: drops leading and trailing
whitespace. -/
def stripChars (l : List Char) : List Char :=
  ((l.dropWhile Char.isWhitespace).reverse.dropWhile Char.isWhitespace).reverse

/-- Python str.strip on strings. -/
def pyStrip (s : String) : String := String.mk (stripChars s.data)

/-- Zero left padding of a character list to a given width. -/
def padChars (w : Nat) (l : List Char) : List Char :=
  List.replicate (w - l.length) '0' ++ l

/-- Zero padded decimal rendering of a natural number (Python %0wd). -/
def pad (w n : Nat) : List Char := padChars w (natToChars n)

/- ### Python str.format (only the forms used by retryer.py: `\x7b\x7b`,
`\x7d\x7d` and the empty replacement field `\x7b\x7d`) -/

/-- Python str.format over a template character list: a doubled opening or
closing brace is an escaped literal brace, an empty replacement field consumes
the next positional argument, any other character is literal. Surplus
positional arguments are ignored, as in Python; a missing argument is rendered
as the empty string (Python would raise, a case the source never hits). -/
def pyFormatChars : List Char → List String → List Char
  | '{' :: '{' :: rest, args => '{' :: pyFormatChars rest args
  | '}' :: '}' :: rest, args => '}' :: pyFormatChars rest args
  | '{' :: '}' :: rest, args =>
    match args with
    | [] => pyFormatChars rest []
    | s :: args => s.data ++ pyFormatChars rest args
  | c :: rest, args => c :: pyFormatChars rest args
  | [], _ => []

/-- Python str.format on strings. -/
def pyFormat (template : String) (args : List String) : String :=
  String.mk (pyFormatChars template.data args)

/- ### backup.py: export formats, filename convention, reconciliation -/

/-- The closed enumeration of export formats (backup.py: export_formats). -/
inductive ExportFormat
  | json_summary | json_details | gpx | tcx | fit
  deriving DecidableEq, Repr, Fintype

/-- backup.py: export_formats — the range of supported export formats, in the
order the module lists them. -/
def export_formats : List ExportFormat :=
  [.json_summary, .json_details, .gpx, .tcx, .fit]

/-- backup.py: format_suffix — maps export formats to file suffixes. -/
def format_suffix : ExportFormat → String
  | .json_summary => "_summary.json"
  | .json_details => "_details.json"
  | .gpx => ".gpx"
  | .tcx => ".tcx"
  | .fit => ".fit"

/-- backup.py: not_found_file — name of the ledger file of failed exports. -/
def not_found_file : String := ".not_found"

/-- An activity start timestamp: a whole-second UTC datetime, the shape the
backup code obtains from the remote inventory (dateutil parse with a UTC
timezone attached and no sub-second part). -/
structure Timestamp where
  year : Nat
  month : Nat
  day : Nat
  hour : Nat
  minute : Nat
  second : Nat
  deriving DecidableEq, Repr

/-- Field bounds enforced by the Python datetime constructor. -/
def Timestamp.Valid (t : Timestamp) : Prop :=
  1 ≤ t.year ∧ t.year ≤ 9999 ∧ 1 ≤ t.month ∧ t.month ≤ 12 ∧ 1 ≤ t.day ∧
    t.day ≤ 31 ∧ t.hour ≤ 23 ∧ t.minute ≤ 59 ∧ t.second ≤ 59

instance (t : Timestamp) : Decidable t.Valid := by
  unfold Timestamp.Valid
  infer_instance

/-- Character level ISO-8601 rendering of a UTC timestamp, as Python
datetime.isoformat() renders a whole-second, UTC-offset aware datetime:
YYYY-MM-DDTHH:MM:SS+00:00. -/
def Timestamp.isoChars (t : Timestamp) : List Char :=
  pad 4 t.year ++ '-' ::
    (pad 2 t.month ++ '-' ::
      (pad 2 t.day ++ 'T' ::
        (pad 2 t.hour ++ ':' ::
          (pad 2 t.minute ++ ':' ::
            (pad 2 t.second ++ ['+', '0', '0', ':', '0', '0'])))))

/-- Python datetime.isoformat() as a string. -/
def Timestamp.isoformat (t : Timestamp) : String := String.mk t.isoChars

/-- An activity tuple (id, starttime), the identity used for set operations. -/
abbrev Activity : Type := Nat × Timestamp

/-- backup.py: os.name == "nt" — modelled for a POSIX host, where it is false. -/
def os_name_nt : Bool := false

/-- backup.py: export_filename(activity, export_format) — the canonical name
"{time}_{id}{suffix}" with time the starttime isoformat, id the activity id
and suffix the format suffix; when os.name is "nt" every colon is replaced by
an underscore. -/
def export_filename (activity : Activity) (export_format : ExportFormat) : String :=
  let fn : String :=
    String.mk (activity.2.isoChars ++ '_' ::
      (natToChars activity.1 ++ (format_suffix export_format).data))
  if os_name_nt then String.mk (fn.data.map (fun c => if c = ':' then '_' else c)) else fn

/-- Backup directory state: the directory file listing (os.listdir) and, when
the .not_found ledger file exists, its lines (each without the newline that
separates lines in the file). -/
structure BackupDir where
  listing : List String
  notFound : Option (List String)

/-- backup.py: _not_found_activities — the stripped lines of the .not_found
ledger, or the empty list when the ledger file does not exist. Python
str.strip() is modelled by pyStrip. -/
def not_found_activities (backup_dir : BackupDir) : List String :=
  match backup_dir.notFound with
  | none => []
  | some lines => lines.map pyStrip

/-- backup.py: need_backup — all given activities that, for at least one of the
requested export formats, have no canonical file name among the directory
listing plus the ledger names. -/
def need_backup (activities : List Activity) (backup_dir : BackupDir)
    (export_formats : List ExportFormat) : Finset Activity :=
  let backed_up := backup_dir.listing ++ not_found_activities backup_dir
  (activities.filter (fun activity =>
    (export_formats.map (fun f => export_filename activity f)).any
      (fun f => decide (f ∉ backed_up)))).toFinset

/- ### retryer.py: strategies and the retry loop -/

/-- Outcome of one invocation of the wrapped operation: a returned value or a
raised error. -/
inductive Outcome (α ε : Type)
  | ok (r : α)
  | exn (e : ε)
  deriving DecidableEq, Repr

/-- retryer.py: FixedDelayStrategy — a fixed delay between attempts.
Durations (timedelta values) are modelled as rational numbers of seconds. -/
structure FixedDelayStrategy where
  delay : ℚ

/-- retryer.py: FixedDelayStrategy.next_delay — always the fixed delay. -/
def FixedDelayStrategy.next_delay (s : FixedDelayStrategy) (attempts : Int) : ℚ :=
  s.delay

/-- retryer.py: ExponentialBackoffDelayStrategy. -/
structure ExponentialBackoffDelayStrategy where
  initial_delay : ℚ

/-- retryer.py: ExponentialBackoffDelayStrategy.next_delay — zero duration for
non-positive attempts, otherwise initial_delay * 2 ** (attempts - 1). -/
def ExponentialBackoffDelayStrategy.next_delay
    (s : ExponentialBackoffDelayStrategy) (attempts : Int) : ℚ :=
  if attempts ≤ 0 then 0 else s.initial_delay * 2 ^ (attempts - 1).toNat

/-- retryer.py: NoDelayStrategy — a fixed delay of zero seconds. -/
def NoDelayStrategy : FixedDelayStrategy := ⟨0⟩

/-- retryer.py: MaxRetriesStopStrategy. -/
structure MaxRetriesStopStrategy where
  max_retries : Int

/-- retryer.py: MaxRetriesStopStrategy.should_continue — true while the
attempt count is at most max_retries. -/
def MaxRetriesStopStrategy.should_continue (s : MaxRetriesStopStrategy)
    (attempts : Int) (elapsed_time : ℚ) : Bool :=
  attempts ≤ s.max_retries

/-- retryer.py: NeverStopStrategy.should_continue — always true. -/
def NeverStopStrategy.should_continue (attempts : Int) (elapsed_time : ℚ) : Bool :=
  true

/-- retryer.py: SuppressAllErrorStrategy.should_suppress — always true. -/
def SuppressAllErrorStrategy.should_suppress {ε : Type} (error : ε) : Bool :=
  true

/-- retryer.py: Retryer — the strategy bundle. Each strategy is carried as its
method (Python duck typing): the success predicate over return values,
next_delay, should_continue, and optionally should_suppress, where a None
error strategy is the distinct absent sentinel meaning suppress nothing.
The field defaults are the Python constructor defaults. -/
structure Retryer (α ε : Type) where
  returnval_predicate : α → Bool := fun _ => true
  delay_strategy : Int → ℚ := NoDelayStrategy.next_delay
  stop_strategy : Int → ℚ → Bool := NeverStopStrategy.should_continue
  error_strategy : Option (ε → Bool) := some SuppressAllErrorStrategy.should_suppress

/-- retryer.py: the GaveUpError message — built with Python str.format from a
template whose doubled braces render as one literal brace pair, so that the
single replacement field consumes the operation name and the attempts
argument is ignored (str.format ignores surplus arguments). -/
def gaveUpMessage (name : String) (attempts : Nat) : String :=
  pyFormat "\x7b\x7b\x7d\x7d: gave up after \x7b\x7d failed attempt(s)"
    [name, natToStr attempts]

/-- Terminal result of Retryer.call: the successful return value, a
GaveUpError carrying its message, or a re-raised error. -/
inductive CallOutcome (α ε : Type)
  | success (r : α)
  | gaveUp (msg : String)
  | raised (e : ε)
  deriving DecidableEq, Repr

/-- Observable trace of one Retryer.call run: the terminal outcome, the number
of invocations of the wrapped operation made, and the delays slept between
attempts, in order. -/
structure CallTrace (α ε : Type) where
  outcome : CallOutcome α ε
  attempts : Nat
  delays : List ℚ
  deriving DecidableEq, Repr

/-- retryer.py: the loop of Retryer.call, from a given attempt count. The
wrapped stateful function is modelled by the sequence of its invocation
outcomes (op k is what the k-th invocation does) and the wall clock by the
elapsed time read after the k-th attempt (clock k). In the source both failed
attempt paths (unsatisfactory return value, suppressed error) fall through to
one stop-strategy check; that shared tail is duplicated in the two arms here.
The fuel argument only bounds the number of attempts modelled: none is
returned exactly when the loop would run past the fuel. -/
def Retryer.callFrom {α ε : Type} (R : Retryer α ε) (name : String)
    (op : Nat → Outcome α ε) (clock : Nat → ℚ) :
    Nat → Nat → List ℚ → Option (CallTrace α ε)
  | 0, _, _ => none
  | fuel + 1, attempts, delays =>
    let a := attempts + 1
    match op a with
    | .ok r =>
      if R.returnval_predicate r then some ⟨.success r, a, delays⟩
      else
        if R.stop_strategy (a : Int) (clock a) then
          R.callFrom name op clock fuel a (delays ++ [R.delay_strategy (a : Int)])
        else some ⟨.gaveUp (gaveUpMessage name a), a, delays⟩
    | .exn e =>
      match R.error_strategy with
      | none => some ⟨.raised e, a, delays⟩
      | some should_suppress =>
        if should_suppress e then
          if R.stop_strategy (a : Int) (clock a) then
            R.callFrom name op clock fuel a (delays ++ [R.delay_strategy (a : Int)])
          else some ⟨.gaveUp (gaveUpMessage name a), a, delays⟩
        else some ⟨.raised e, a, delays⟩

/-- retryer.py: Retryer.call — runs the loop from zero attempts, no delays. -/
def Retryer.call {α ε : Type} (R : Retryer α ε) (name : String)
    (op : Nat → Outcome α ε) (clock : Nat → ℚ) (fuel : Nat) :
    Option (CallTrace α ε) :=
  R.callFrom name op clock fuel 0 []

/- ### backup.py: download orchestration -/

/-- Per-format remote fetch outcomes of one activity, as observed through
retryer.call: either a raised error (one the retryer re-raised, e.g. a
GaveUpError after exhausted retries) or a returned value, where none is the
explicit not-available result (Python None). Payloads are file contents. -/
structure RemoteFetches (ε : Type) where
  summary : Except ε (Option String)
  details : Except ε (Option String)
  gpx : Except ε (Option String)
  tcx : Except ε (Option String)
  fit : Except ε (Option String)

/-- The fetch outcome for a given export format. -/
def RemoteFetches.fetchOf {ε : Type} (F : RemoteFetches ε) :
    ExportFormat → Except ε (Option String)
  | .json_summary => F.summary
  | .json_details => F.details
  | .gpx => F.gpx
  | .tcx => F.tcx
  | .fit => F.fit

/-- Python json.dumps of a fetched json payload: None serializes to the file
text "null"; a present payload is modelled by its serialized text itself. -/
def json_dumps : Option String → String
  | none => "null"
  | some s => s

/-- The observable file-system effect of one download run on the backup
directory: the files written (name, content) and the lines appended to the
.not_found ledger, each in order. -/
structure DownloadEffect where
  files : List (String × String)
  ledger : List String
  deriving DecidableEq, Repr

/-- Appends one written file to the effect. -/
def DownloadEffect.write (st : DownloadEffect) (name content : String) :
    DownloadEffect :=
  { st with files := st.files ++ [(name, content)] }

/-- Appends one .not_found ledger line to the effect. -/
def DownloadEffect.addLedger (st : DownloadEffect) (name : String) :
    DownloadEffect :=
  { st with ledger := st.ledger ++ [name] }

/-- One per-format stage of backup.py download: json_summary fetches and
writes its file, propagating a raised error; json_details does the same but
inside a try/except that swallows any error; gpx, tcx and fit fetch, append
the canonical name to the ledger on the explicit None result, write the file
otherwise, and propagate a raised error. A stage is skipped when its format
was not requested or when a previous stage already raised (an exception
aborts the rest of the function). -/
def downloadStep {ε : Type} (F : RemoteFetches ε) (activity : Activity)
    (requested : List ExportFormat) (acc : DownloadEffect × Option ε)
    (f : ExportFormat) : DownloadEffect × Option ε :=
  match acc with
  | (st, some e) => (st, some e)
  | (st, none) =>
    if f ∈ requested then
      match f, F.fetchOf f with
      | .json_summary, .error e => (st, some e)
      | .json_summary, .ok v =>
        (st.write (export_filename activity .json_summary) (json_dumps v), none)
      | .json_details, .error _ => (st, none)
      | .json_details, .ok v =>
        (st.write (export_filename activity .json_details) (json_dumps v), none)
      | _, .error e => (st, some e)
      | _, .ok none => (st.addLedger (export_filename activity f), none)
      | _, .ok (some x) => (st.write (export_filename activity f) x, none)
    else (st, none)

/-- backup.py: download — processes the five formats in the fixed source
order (json_summary, json_details, gpx, tcx, fit), threading the effect
state; requested is the export_formats argument. Returns the effect and the
raised exception, if any. -/
def download {ε : Type} (F : RemoteFetches ε) (activity : Activity)
    (requested : List ExportFormat) : DownloadEffect × Option ε :=
  export_formats.foldl (downloadStep F activity requested) (⟨[], []⟩, none)

/- ### garminclient.py: the require_session guard -/

/-- An authenticated HTTP session (a requests.session object, opaque). -/
structure Session where
  sid : Nat
  deriving DecidableEq, Repr

/-- garminclient.py: GarminClient state — the credentials plus the optional
session, set to None by the constructor, to a session by connect() and back
to None by disconnect(). -/
structure GarminClient where
  username : String
  password : String
  session : Option Session

/-- garminclient.py: GarminClient construction — session starts unset. -/
def GarminClient.mkNew (username password : String) : GarminClient :=
  ⟨username, password, none⟩

/-- garminclient.py: connect — obtains a fresh http session and
authenticates; a successful connect leaves the session set (the
authentication handshake itself is out of the modelled scope). -/
def GarminClient.connect (c : GarminClient) (s : Session) : GarminClient :=
  { c with session := some s }

/-- garminclient.py: disconnect — closes and unsets the session when set. -/
def GarminClient.disconnect (c : GarminClient) : GarminClient :=
  if c.session.isSome then { c with session := none } else c

/-- A remote request issued through the session (method, url and parameters
flattened into strings). -/
structure Request where
  url : String
  body : String
  deriving DecidableEq, Repr

/-- The detailedImportResult json of the upload endpoint: the internalIds of
successes and failures, and the upload uuid and creationDate used for
polling. -/
structure ImportResult where
  successes : List Int
  failures : List Int
  uploadUuid : String
  creationDate : String

/-- A remote response, pre-parsed into the shapes the client reads from it:
the HTTP status, the raw text, the activity entries of the activity-search
endpoint (timestamps opaque), the parsed location header id of a 201 upload
poll, and the detailedImportResult of an upload (None models the
JSONDecodeError / KeyError case). -/
structure Response where
  status_code : Int
  text : String
  activities : List (Int × Nat)
  location : Option Int
  importResult : Option ImportResult

/-- A client computation: given the remote service (an oracle from requests
to responses), the list of requests it issues, in order, and either its
return value or the message of the exception it raises. -/
def ClientM (α : Type) : Type :=
  (Request → Response) → List Request × Except String α

/-- Issues one request and maps its response to a result. -/
def ClientM.request {α : Type} (req : Request) (k : Response → Except String α) :
    ClientM α :=
  fun remote => ([req], k (remote req))

/-- garminclient.py: require_session — the decorator wrapped around every
remote operation needing an authenticated session: when the session field is
unset (falsy) it raises before running the wrapped function, hence before any
request is issued and without touching the client; otherwise it is
transparent. (The message drops the stray trailing quote of the source
literal.) -/
def require_session {α : Type} (client_function : GarminClient → ClientM α)
    (client : GarminClient) : ClientM α :=
  fun remote =>
    match client.session with
    | none =>
      ([], .error "Attempt to use GarminClient without being connected. Call connect() before first use.")
    | some _ => client_function client remote

/-- garminclient.py: body of get_activity_summary — GET the activity summary
endpoint; any non-200 status raises; otherwise the parsed json is returned
(json payloads are modelled by the response text). -/
def get_activity_summary_body (activity_id : Nat) (client : GarminClient) :
    ClientM String :=
  ClientM.request
    ⟨"https://connect.garmin.com/proxy/activity-service/activity/" ++ natToStr activity_id, ""⟩
    (fun response =>
      if response.status_code ≠ 200 then
        .error ("failed to fetch json summary for activity " ++ natToStr activity_id)
      else .ok response.text)

/-- garminclient.py: get_activity_summary = require_session around its body. -/
def get_activity_summary (client : GarminClient) (activity_id : Nat) :
    ClientM String :=
  require_session (get_activity_summary_body activity_id) client

/-- garminclient.py: body of get_activity_details — GET the details endpoint;
any non-200 status raises; otherwise the parsed json is returned. -/
def get_activity_details_body (activity_id : Nat) (client : GarminClient) :
    ClientM String :=
  ClientM.request
    ⟨"https://connect.garmin.com/proxy/activity-service/activity/" ++ natToStr activity_id ++ "/details", ""⟩
    (fun response =>
      if response.status_code ≠ 200 then
        .error ("failed to fetch json activityDetails for " ++ natToStr activity_id)
      else .ok response.text)

/-- garminclient.py: get_activity_details = require_session around its body. -/
def get_activity_details (client : GarminClient) (activity_id : Nat) :
    ClientM String :=
  require_session (get_activity_details_body activity_id) client

/-- garminclient.py: body of get_activity_gpx — GET the gpx export endpoint;
404 and 204 both mean no gpx representation exists and return None; any other
non-200 status raises; otherwise the gpx text is returned. -/
def get_activity_gpx_body (activity_id : Nat) (client : GarminClient) :
    ClientM (Option String) :=
  ClientM.request
    ⟨"https://connect.garmin.com/proxy/download-service/export/gpx/activity/" ++ natToStr activity_id, ""⟩
    (fun response =>
      if response.status_code = 404 ∨ response.status_code = 204 then .ok none
      else if response.status_code ≠ 200 then
        .error ("failed to fetch GPX for activity " ++ natToStr activity_id)
      else .ok (some response.text))

/-- garminclient.py: get_activity_gpx = require_session around its body. -/
def get_activity_gpx (client : GarminClient) (activity_id : Nat) :
    ClientM (Option String) :=
  require_session (get_activity_gpx_body activity_id) client

/-- garminclient.py: body of get_activity_tcx — GET the tcx export endpoint;
404 means no tcx representation exists and returns None; any other non-200
status raises; otherwise the tcx text is returned. -/
def get_activity_tcx_body (activity_id : Nat) (client : GarminClient) :
    ClientM (Option String) :=
  ClientM.request
    ⟨"https://connect.garmin.com/proxy/download-service/export/tcx/activity/" ++ natToStr activity_id, ""⟩
    (fun response =>
      if response.status_code = 404 then .ok none
      else if response.status_code ≠ 200 then
        .error ("failed to fetch TCX for activity " ++ natToStr activity_id)
      else .ok (some response.text))

/-- garminclient.py: get_activity_tcx = require_session around its body. -/
def get_activity_tcx (client : GarminClient) (activity_id : Nat) :
    ClientM (Option String) :=
  require_session (get_activity_tcx_body activity_id) client

/-- garminclient.py: sys.maxsize on a 64-bit host. -/
def sys_maxsize : Nat := 2 ^ 63 - 1

/-- garminclient.py: body of _fetch_activity_ids_and_ts — GET one batch of the
activity search endpoint; a non-200 status raises; otherwise the parsed
entries (empty when the index is out of bounds or the account is empty). -/
def fetch_activity_ids_and_ts_body (start_index max_limit : Nat)
    (client : GarminClient) : ClientM (List (Int × Nat)) :=
  ClientM.request
    ⟨"https://connect.garmin.com/proxy/activitylist-service/activities/search/activities",
      "start=" ++ natToStr start_index ++ ";limit=" ++ natToStr max_limit⟩
    (fun response =>
      if response.status_code ≠ 200 then
        .error ("failed to fetch activities " ++ natToStr start_index ++ " to " ++
          natToStr (start_index + max_limit - 1))
      else .ok response.activities)

/-- garminclient.py: _fetch_activity_ids_and_ts, itself require_session
guarded. -/
def fetch_activity_ids_and_ts (client : GarminClient)
    (start_index max_limit : Nat) : ClientM (List (Int × Nat)) :=
  require_session (fetch_activity_ids_and_ts_body start_index max_limit) client

/-- garminclient.py: the batch loop of list_activities over
range(0, sys.maxsize, batch_size): fetches batches of 100 and stops at the
first empty batch; the finite range makes the iteration count finite, counted
down by the first argument. -/
def list_activities_loop (client : GarminClient) (remote : Request → Response) :
    Nat → Nat → List Request → List (Int × Nat) →
      List Request × Except String (List (Int × Nat))
  | 0, _, reqs, acc => (reqs, .ok acc)
  | steps + 1, start_index, reqs, acc =>
    match fetch_activity_ids_and_ts client start_index 100 remote with
    | (rs, .error e) => (reqs ++ rs, .error e)
    | (rs, .ok []) => (reqs ++ rs, .ok acc)
    | (rs, .ok batch) =>
      list_activities_loop client remote steps (start_index + 100) (reqs ++ rs)
        (acc ++ batch)

/-- Number of indices in range(0, sys.maxsize, 100). -/
def list_activities_steps : Nat := (sys_maxsize + 99) / 100

/-- garminclient.py: list_activities = require_session around the batch
loop. -/
def list_activities (client : GarminClient) : ClientM (List (Int × Nat)) :=
  require_session
    (fun c => fun remote => list_activities_loop c remote list_activities_steps 0 [] [])
    client

/-- Python os.path.splitext on a bare file name: splits before the last dot,
except that a leading run of dots carries no extension. -/
def splitext (fn : String) : String × String :=
  let l := fn.data
  let afterLen := (l.reverse.takeWhile (fun c => c ≠ '.')).length
  if afterLen = l.length then (fn, "")
  else
    let rootLen := l.length - afterLen - 1
    if (l.take rootLen).all (fun c => c = '.') then (fn, "")
    else (String.mk (l.take rootLen), String.mk (l.drop rootLen))

/-- The url of one upload-completion poll; the millisecond wall-clock nonce
appended to the real url is modelled by the attempt number. -/
def pollRequest (uuid creation_date : String) (nonce : Nat) : Request :=
  ⟨"https://connect.garmin.com/proxy/activity-service/activity/status/" ++
      (creation_date.take 10) ++ "/" ++
      String.mk (uuid.data.filter (fun c => c ≠ '-')) ++ "?_=" ++ natToStr nonce,
    ""⟩

/-- garminclient.py: body of _poll_upload_completion — one poll of the upload
status endpoint: 201 with a location header returns the new activity id, 202
returns None (still processing), anything else raises. -/
def poll_upload_completion_body (uuid creation_date : String) (nonce : Nat)
    (client : GarminClient) : ClientM (Option Int) :=
  ClientM.request (pollRequest uuid creation_date nonce)
    (fun response =>
      match response.status_code, response.location with
      | 201, some aid => .ok (some aid)
      | 202, _ => .ok none
      | _, _ => .error "upload poll failed")

/-- garminclient.py: _poll_upload_completion = require_session around its
body. -/
def poll_upload_completion (client : GarminClient) (uuid creation_date : String)
    (nonce : Nat) : ClientM (Option Int) :=
  require_session (poll_upload_completion_body uuid creation_date nonce) client

/-- An already-open upload file object: its base name and its content. -/
structure UploadFile where
  name : String
  content : String

/-- The invocation outcomes of the retried poll operation, one per attempt. -/
def upload_poll_op (client : GarminClient) (remote : Request → Response)
    (uuid creation_date : String) (k : Nat) : Outcome (Option Int) String :=
  match poll_upload_completion client uuid creation_date k remote with
  | (_, .ok v) => .ok v
  | (_, .error e) => .exn e

/-- garminclient.py: the retryer used by the upload polling branch —
returnval_predicate bool (truthiness: a non-zero returned id), exponential
backoff from one second, at most 6 retries, no error strategy. -/
def uploadPollRetryer : Retryer (Option Int) String where
  returnval_predicate := fun v => match v with | none => false | some i => i ≠ 0
  delay_strategy := ExponentialBackoffDelayStrategy.next_delay ⟨1⟩
  stop_strategy := MaxRetriesStopStrategy.should_continue ⟨6⟩
  error_strategy := none

/-- garminclient.py: body of upload_activity — guesses the format from the
file extension when none is given, POSTs the upload, then branches on the
detailedImportResult: one success; one failure with status 409 (duplicate);
none of either with status 202 (poll through the retryer, whose GaveUpError
or unsuppressed poll error propagates); multiple successes raise; anything
else raises. Finally, when any optional metadata field is given, PUTs the
metadata, raising on a non-204 status. The wall clock read by the retryer is
left abstract at zero since its stop strategy ignores elapsed time. -/
def upload_activity_body (file : UploadFile) (format : Option String)
    (name description activity_type : Option String) (privateFlag : Bool)
    (client : GarminClient) : ClientM Int :=
  fun remote =>
    let ext := (splitext file.name).2
    let fmtRes : Except String String :=
      match format with
      | some f => .ok f
      | none =>
        if ext.toLower = ".gpx" ∨ ext.toLower = ".tcx" ∨ ext.toLower = ".fit" then
          .ok (ext.toLower.drop 1)
        else .error ("could not guess file type for " ++ file.name)
    match fmtRes with
    | .error e => ([], .error e)
    | .ok fmt =>
      let upReq : Request :=
        ⟨"https://connect.garmin.com/proxy/upload-service/upload/." ++ fmt,
          file.name ++ ";" ++ file.content⟩
      let response := remote upReq
      let idRes : List Request × Except String Int :=
        match response.importResult with
        | none => ([], .error ("failed to upload " ++ fmt ++ " for activity"))
        | some j =>
          match j.successes, j.failures with
          | [aid], [] => ([], .ok aid)
          | [], [fid] =>
            if response.status_code = 409 then ([], .ok fid)
            else ([], .error ("failed to upload " ++ fmt ++ " for activity"))
          | [], [] =>
            if response.status_code = 202 then
              match uploadPollRetryer.call "_poll_upload_completion"
                  (upload_poll_op client remote j.uploadUuid j.creationDate)
                  (fun _ => 0) 7 with
              | some t =>
                ((List.range t.attempts).map
                    (fun i => pollRequest j.uploadUuid j.creationDate (i + 1)),
                  match t.outcome with
                  | .success (some aid) => .ok aid
                  | .success none => .error "poll returned no id"
                  | .gaveUp msg => .error msg
                  | .raised e => .error e)
              | none => ([], .error "poll fuel exhausted")
            else ([], .error ("failed to upload " ++ fmt ++ " for activity"))
          | _ :: _ :: _, _ => ([], .error ("uploading " ++ fmt ++ " resulted in multiple activities"))
          | _, _ => ([], .error ("failed to upload " ++ fmt ++ " for activity"))
      match idRes with
      | (rs, .error e) => (upReq :: rs, .error e)
      | (rs, .ok aid) =>
        if name.isSome ∨ description.isSome ∨ activity_type.isSome ∨ privateFlag then
          let putReq : Request :=
            ⟨"https://connect.garmin.com/proxy/activity-service/activity/" ++ toString aid, "metadata"⟩
          let putResp := remote putReq
          if putResp.status_code ≠ 204 then
            (upReq :: rs ++ [putReq], .error ("failed to set metadata for activity " ++ toString aid))
          else (upReq :: rs ++ [putReq], .ok aid)
        else (upReq :: rs, .ok aid)

/-- garminclient.py: upload_activity = require_session around its body. -/
def upload_activity (client : GarminClient) (file : UploadFile)
    (format name description activity_type : Option String) (privateFlag : Bool) :
    ClientM Int :=
  require_session (upload_activity_body file format name description activity_type privateFlag) client

/- ### Auxiliary definitions used by the claim statements -/

/-- The guard message raised by require_session on an unconnected client. -/
def session_error_msg : String :=
  "Attempt to use GarminClient without being connected. Call connect() before first use."

/-- One invocation outcome that the retry loop counts as a failed attempt: an
unsatisfactory return value, or a raised error the error strategy suppresses. -/
def failedAttempt {α ε : Type} (R : Retryer α ε) (o : Outcome α ε) : Prop :=
  match o with
  | .ok r => R.returnval_predicate r = false
  | .exn e => ∃ f, R.error_strategy = some f ∧ f e = true

/-- The three formats whose download stage routes the explicit not-available
result to the .not_found ledger. -/
def file_export_formats : List ExportFormat := [.gpx, .tcx, .fit]

/-- True exactly for the explicit not-available fetch outcome (a returned
Python None, as opposed to a raised error). -/
def isNotAvailable {ε : Type} : Except ε (Option String) → Bool
  | .ok none => true
  | _ => false

/-- The requested-format stages among fs that can propagate a raised error do
not raise: json_summary and the three file formats returned a value
(json_details catches its own errors; an unrequested format is skipped). -/
def StageSafe {ε : Type} (F : RemoteFetches ε) (requested : List ExportFormat)
    (f : ExportFormat) : Prop :=
  f ∈ requested → f ≠ .json_details → ∃ v, F.fetchOf f = .ok v

/-- The file (if any) the download stage for one requested format writes when
it does not raise. -/
def writeChunk {ε : Type} (F : RemoteFetches ε) (activity : Activity)
    (requested : List ExportFormat) (f : ExportFormat) : List (String × String) :=
  if f ∈ requested then
    match f, F.fetchOf f with
    | .json_summary, .ok v => [(export_filename activity f, json_dumps v)]
    | .json_details, .ok v => [(export_filename activity f, json_dumps v)]
    | _, .ok (some x) => [(export_filename activity f, x)]
    | _, _ => []
  else []

/-- The ledger line (if any) the download stage for one requested format
appends when it does not raise. -/
def ledgerChunk {ε : Type} (F : RemoteFetches ε) (activity : Activity)
    (requested : List ExportFormat) (f : ExportFormat) : List String :=
  if f ∈ requested then
    match f, F.fetchOf f with
    | .gpx, .ok none => [export_filename activity f]
    | .tcx, .ok none => [export_filename activity f]
    | .fit, .ok none => [export_filename activity f]
    | _, _ => []
  else []

/-- The files the download stages for fs write when no stage raises. -/
def expectedWrites {ε : Type} (F : RemoteFetches ε) (activity : Activity)
    (requested : List ExportFormat) : List ExportFormat → List (String × String)
  | [] => []
  | f :: fs => writeChunk F activity requested f ++ expectedWrites F activity requested fs

/-- The ledger lines the download stages for fs append when no stage raises. -/
def expectedLedger {ε : Type} (F : RemoteFetches ε) (activity : Activity)
    (requested : List ExportFormat) : List ExportFormat → List String
  | [] => []
  | f :: fs => ledgerChunk F activity requested f ++ expectedLedger F activity requested fs

/- ### Helper lemmas: decimal rendering -/

theorem charToDigit_digitChar : ∀ d : Nat, d < 10 → charToDigit (digitChar d) = d := by
  decide

theorem charsToNat_append_digit (l : List Char) (c : Char) :
    charsToNat (l ++ [c]) = 10 * charsToNat l + charToDigit c := by
  simp [charsToNat, List.foldl_append]

theorem charsToNat_natToCharsAux :
    ∀ fuel n, n ≤ fuel → charsToNat (natToCharsAux fuel n) = n := by
  intro fuel
  induction fuel with
  | zero =>
    intro n hn
    interval_cases n
    rfl
  | succ fuel ih =>
    intro n hn
    match n with
    | 0 => rfl
    | Nat.succ m =>
      have hdivle : (m + 1) / 10 ≤ fuel := by omega
      simp only [natToCharsAux, charsToNat_append_digit, ih _ hdivle,
        charToDigit_digitChar _ (Nat.mod_lt _ (by norm_num))]
      omega

theorem charsToNat_natToChars (n : Nat) : charsToNat (natToChars n) = n := by
  by_cases h : n = 0
  · subst h; rfl
  · simp [natToChars, h, charsToNat_natToCharsAux n n le_rfl]

theorem natToChars_injective : Function.Injective natToChars := by
  intro a b h
  have ha := charsToNat_natToChars a
  rw [h, charsToNat_natToChars] at ha
  exact ha.symm

theorem natToCharsAux_length :
    ∀ fuel n w, n ≤ fuel → n < 10 ^ w → (natToCharsAux fuel n).length ≤ w := by
  intro fuel
  induction fuel with
  | zero =>
    intro n w h1 h2
    interval_cases n
    simp [natToCharsAux]
  | succ fuel ih =>
    intro n w h1 h2
    match n with
    | 0 => simp [natToCharsAux]
    | Nat.succ m =>
      have hw : w ≠ 0 := by
        rintro rfl
        simp at h2
      obtain ⟨v, rfl⟩ : ∃ v, w = v + 1 := ⟨w - 1, by omega⟩
      have hdiv : (m + 1) / 10 < 10 ^ v := by
        rw [Nat.div_lt_iff_lt_mul (by norm_num)]
        calc m + 1 < 10 ^ (v + 1) := h2
          _ = 10 ^ v * 10 := by ring
      have hdivle : (m + 1) / 10 ≤ fuel := by omega
      have := ih _ v hdivle hdiv
      simp only [natToCharsAux, List.length_append, List.length_cons, List.length_nil]
      omega

theorem natToChars_length_le (n w : Nat) (hw : 1 ≤ w) (hn : n < 10 ^ w) :
    (natToChars n).length ≤ w := by
  by_cases h : n = 0
  · subst h; simpa [natToChars] using hw
  · simpa [natToChars, h] using natToCharsAux_length n n w le_rfl hn

theorem pad_length (w n : Nat) (hw : 1 ≤ w) (hn : n < 10 ^ w) : (pad w n).length = w := by
  have := natToChars_length_le n w hw hn
  simp only [pad, padChars, List.length_append, List.length_replicate]
  omega

theorem charsToNat_cons_zero (l : List Char) : charsToNat ('0' :: l) = charsToNat l := rfl

theorem charsToNat_replicate_zero_append (k : Nat) (l : List Char) :
    charsToNat (List.replicate k '0' ++ l) = charsToNat l := by
  induction k with
  | zero => rfl
  | succ k ih => rw [List.replicate_succ, List.cons_append, charsToNat_cons_zero, ih]

theorem charsToNat_pad (w n : Nat) : charsToNat (pad w n) = n := by
  rw [pad, padChars, charsToNat_replicate_zero_append, charsToNat_natToChars]

theorem pad_inj {w a b : Nat} (h : pad w a = pad w b) : a = b := by
  have ha := charsToNat_pad w a
  rw [h, charsToNat_pad] at ha
  exact ha.symm

/- ### Helper lemmas: isoformat and export_filename injectivity -/

theorem isoChars_length (t : Timestamp) (h : t.Valid) : t.isoChars.length = 25 := by
  obtain ⟨h1, h2, h3, h4, h5, h6, h7, h8, h9⟩ := h
  have e4 : (10 : Nat) ^ 4 = 10000 := by norm_num
  have e2 : (10 : Nat) ^ 2 = 100 := by norm_num
  rw [Timestamp.isoChars]
  simp only [List.length_append, List.length_cons,
    pad_length 4 t.year (by norm_num) (by omega),
    pad_length 2 t.month (by norm_num) (by omega),
    pad_length 2 t.day (by norm_num) (by omega),
    pad_length 2 t.hour (by norm_num) (by omega),
    pad_length 2 t.minute (by norm_num) (by omega),
    pad_length 2 t.second (by norm_num) (by omega)]
  simp

theorem isoChars_inj {t1 t2 : Timestamp} (v1 : t1.Valid) (v2 : t2.Valid)
    (h : t1.isoChars = t2.isoChars) : t1 = t2 := by
  have e4 : (10 : Nat) ^ 4 = 10000 := by norm_num
  have e2 : (10 : Nat) ^ 2 = 100 := by norm_num
  obtain ⟨a1, a2, a3, a4, a5, a6, a7, a8, a9⟩ := v1
  obtain ⟨b1, b2, b3, b4, b5, b6, b7, b8, b9⟩ := v2
  rw [Timestamp.isoChars, Timestamp.isoChars] at h
  obtain ⟨hy, h⟩ := List.append_inj h
    (by rw [pad_length 4 t1.year (by norm_num) (by omega),
            pad_length 4 t2.year (by norm_num) (by omega)])
  obtain ⟨-, h⟩ := List.cons.inj h
  obtain ⟨hmo, h⟩ := List.append_inj h
    (by rw [pad_length 2 t1.month (by norm_num) (by omega),
            pad_length 2 t2.month (by norm_num) (by omega)])
  obtain ⟨-, h⟩ := List.cons.inj h
  obtain ⟨hd, h⟩ := List.append_inj h
    (by rw [pad_length 2 t1.day (by norm_num) (by omega),
            pad_length 2 t2.day (by norm_num) (by omega)])
  obtain ⟨-, h⟩ := List.cons.inj h
  obtain ⟨hh, h⟩ := List.append_inj h
    (by rw [pad_length 2 t1.hour (by norm_num) (by omega),
            pad_length 2 t2.hour (by norm_num) (by omega)])
  obtain ⟨-, h⟩ := List.cons.inj h
  obtain ⟨hmi, h⟩ := List.append_inj h
    (by rw [pad_length 2 t1.minute (by norm_num) (by omega),
            pad_length 2 t2.minute (by norm_num) (by omega)])
  obtain ⟨-, h⟩ := List.cons.inj h
  obtain ⟨hs, -⟩ := List.append_inj h
    (by rw [pad_length 2 t1.second (by norm_num) (by omega),
            pad_length 2 t2.second (by norm_num) (by omega)])
  cases t1
  cases t2
  simp only at hy hmo hd hh hmi hs ⊢
  simp only [Timestamp.mk.injEq]
  exact ⟨pad_inj hy, pad_inj hmo, pad_inj hd, pad_inj hh, pad_inj hmi, pad_inj hs⟩

theorem format_suffix_suffix_inj :
    ∀ f1 f2 : ExportFormat,
      (format_suffix f1).data <:+ (format_suffix f2).data → f1 = f2 := by
  decide

theorem export_filename_inj {a1 a2 : Activity} {f1 f2 : ExportFormat}
    (v1 : a1.2.Valid) (v2 : a2.2.Valid)
    (h : export_filename a1 f1 = export_filename a2 f2) : a1 = a2 ∧ f1 = f2 := by
  rw [export_filename, export_filename] at h
  simp only [os_name_nt, Bool.false_eq_true, if_false] at h
  rw [String.ext_iff] at h
  dsimp only at h
  obtain ⟨hts, h⟩ := List.append_inj h
    (by rw [isoChars_length _ v1, isoChars_length _ v2])
  have ht : a1.2 = a2.2 := isoChars_inj v1 v2 hts
  obtain ⟨-, h⟩ := List.cons.inj h
  have hsuf1 : (format_suffix f1).data <:+
      natToChars a2.1 ++ (format_suffix f2).data := by
    rw [← h]
    exact (List.suffix_append _ _).trans (by rw [h])
  have hsuf2 : (format_suffix f2).data <:+
      natToChars a2.1 ++ (format_suffix f2).data := List.suffix_append _ _
  have hf : f1 = f2 := by
    rcases List.suffix_or_suffix_of_suffix hsuf1 hsuf2 with h' | h'
    · exact format_suffix_suffix_inj _ _ h'
    · exact (format_suffix_suffix_inj _ _ h').symm
  subst hf
  have hid : natToChars a1.1 = natToChars a2.1 :=
    (List.append_cancel_right_eq _ _ _).mp h
  exact ⟨Prod.ext (natToChars_injective hid) ht, rfl⟩

/- ### Helper lemmas: reconciliation -/

theorem mem_need_backup {activities : List Activity} {backup_dir : BackupDir}
    {fmts : List ExportFormat} {a : Activity} :
    a ∈ need_backup activities backup_dir fmts ↔
      a ∈ activities ∧ ∃ f ∈ fmts,
        export_filename a f ∉ backup_dir.listing ++ not_found_activities backup_dir := by
  simp [need_backup, List.mem_filter, List.any_eq_true]

theorem need_backup_congr {acts : List Activity} {d1 d2 : BackupDir}
    {fmts : List ExportFormat}
    (h : ∀ s, s ∈ d1.listing ++ not_found_activities d1 ↔
      s ∈ d2.listing ++ not_found_activities d2) :
    need_backup acts d1 fmts = need_backup acts d2 fmts := by
  ext a
  rw [mem_need_backup, mem_need_backup]
  constructor
  · rintro ⟨ha, f, hf, hn⟩
    exact ⟨ha, f, hf, fun hm => hn ((h _).mpr hm)⟩
  · rintro ⟨ha, f, hf, hn⟩
    exact ⟨ha, f, hf, fun hm => hn ((h _).mp hm)⟩

/-- C1: for every activity list, backup directory and non-empty requested
format list, need_backup returns exactly the activities for which at least one
requested format's canonical name is absent from the union of the directory
listing and the .not_found ledger names; an activity is excluded only when the
canonical names of all requested formats appear in that union. -/
theorem need_backup_characterization
    (activities : List Activity) (backup_dir : BackupDir)
    (fmts : List ExportFormat) (hne : fmts ≠ []) (a : Activity) :
    a ∈ need_backup activities backup_dir fmts ↔
      a ∈ activities ∧ ∃ f ∈ fmts,
        export_filename a f ∉ backup_dir.listing ++ not_found_activities backup_dir :=
  mem_need_backup

/-- Witness for the C1 theorem: with formats gpx and fit requested and only
the gpx file of activity (1, t1) on disk, (1, t1) still needs backup. -/
theorem need_backup_characterization_witness :
    ([ExportFormat.gpx, .fit] ≠ []) ∧
      ((1, ⟨2015, 2, 17, 5, 45, 0⟩) : Activity) ∈
        need_backup [(1, ⟨2015, 2, 17, 5, 45, 0⟩)]
          ⟨["2015-02-17T05:45:00+00:00_1.gpx"], none⟩ [.gpx, .fit] :=
  ⟨by decide,
    (need_backup_characterization [(1, ⟨2015, 2, 17, 5, 45, 0⟩)]
        ⟨["2015-02-17T05:45:00+00:00_1.gpx"], none⟩ [.gpx, .fit] (by decide)
        (1, ⟨2015, 2, 17, 5, 45, 0⟩)).mpr (by decide)⟩

/-- C7: for reconciliation a ledger name is interchangeable with the file
existing on disk — moving a canonical name between the directory listing and
the ledger does not change need_backup, and duplicating a ledger line does not
change need_backup. -/
theorem need_backup_ledger_disk_equivalence :
    (∀ (acts : List Activity) (listing lines : List String)
        (fmts : List ExportFormat) (n : String), pyStrip n = n →
      need_backup acts ⟨listing ++ [n], some lines⟩ fmts =
        need_backup acts ⟨listing, some (lines ++ [n])⟩ fmts) ∧
    (∀ (acts : List Activity) (listing l1 l2 : List String) (x : String)
        (fmts : List ExportFormat),
      need_backup acts ⟨listing, some (l1 ++ x :: l2)⟩ fmts =
        need_backup acts ⟨listing, some (l1 ++ x :: x :: l2)⟩ fmts) := by
  constructor
  · intro acts listing lines fmts n hn
    apply need_backup_congr
    intro s
    simp only [not_found_activities, List.map_append, List.map_cons, List.map_nil,
      List.mem_append, List.mem_singleton, List.mem_map, hn]
    aesop
  · intro acts listing l1 l2 x fmts
    apply need_backup_congr
    intro s
    simp only [not_found_activities, List.map_append, List.map_cons,
      List.mem_append, List.mem_cons, List.mem_map]
    aesop

/-- Witness for the C7 theorem at a concrete directory state. -/
theorem need_backup_ledger_disk_equivalence_witness :
    need_backup [(1, ⟨2015, 2, 17, 5, 45, 0⟩)]
        ⟨["a.gpx"] ++ ["2015-02-17T05:45:00+00:00_1.fit"], some ["x"]⟩ [.fit] =
      need_backup [(1, ⟨2015, 2, 17, 5, 45, 0⟩)]
        ⟨["a.gpx"], some (["x"] ++ ["2015-02-17T05:45:00+00:00_1.fit"])⟩ [.fit] ∧
    need_backup [(1, ⟨2015, 2, 17, 5, 45, 0⟩)]
        ⟨[], some ([] ++ "y" :: [])⟩ [.fit] =
      need_backup [(1, ⟨2015, 2, 17, 5, 45, 0⟩)]
        ⟨[], some ([] ++ "y" :: "y" :: [])⟩ [.fit] :=
  ⟨need_backup_ledger_disk_equivalence.1 _ ["a.gpx"] ["x"] [.fit]
      "2015-02-17T05:45:00+00:00_1.fit" (by decide),
    need_backup_ledger_disk_equivalence.2 _ [] [] [] "y" [.fit]⟩

/-- C8: export_filename is a pure deterministic map to the pattern
"timestamp-iso_idsuffix", injective across activities (with datetime-valid
timestamps) and formats, with pairwise distinct suffixes. -/
theorem export_filename_injective_claim :
    (∀ (a1 a2 : Activity) (f1 f2 : ExportFormat), a1.2.Valid → a2.2.Valid →
      export_filename a1 f1 = export_filename a2 f2 → a1 = a2 ∧ f1 = f2) ∧
    (∀ f1 f2 : ExportFormat, f1 ≠ f2 → format_suffix f1 ≠ format_suffix f2) ∧
    (∀ (a : Activity) (f : ExportFormat),
      export_filename a f = a.2.isoformat ++ "_" ++ natToStr a.1 ++ format_suffix f) := by
  refine ⟨fun a1 a2 f1 f2 v1 v2 h => export_filename_inj v1 v2 h, by decide, ?_⟩
  intro a f
  apply String.ext
  simp [export_filename, os_name_nt, Timestamp.isoformat, natToStr]

/-- Witness for the C8 theorem: the injectivity part applied at a concrete
valid activity and the suffix-distinctness part at two distinct formats. -/
theorem export_filename_injective_claim_witness :
    (((7, ⟨2015, 2, 17, 5, 45, 0⟩) : Activity) = (7, ⟨2015, 2, 17, 5, 45, 0⟩) ∧
        ExportFormat.gpx = ExportFormat.gpx) ∧
      format_suffix .gpx ≠ format_suffix .tcx :=
  ⟨export_filename_injective_claim.1 _ _ _ _ (by decide) (by decide) rfl,
    export_filename_injective_claim.2.1 .gpx .tcx (by decide)⟩

/- ### Helper lemmas: the retry loop -/

theorem callFrom_zero {α ε : Type} (R : Retryer α ε) (name : String)
    (op : Nat → Outcome α ε) (clock : Nat → ℚ) (attempts : Nat) (delays : List ℚ) :
    R.callFrom name op clock 0 attempts delays = none := rfl

theorem callFrom_succ {α ε : Type} (R : Retryer α ε) (name : String)
    (op : Nat → Outcome α ε) (clock : Nat → ℚ) (fuel attempts : Nat)
    (delays : List ℚ) :
    R.callFrom name op clock (fuel + 1) attempts delays =
      match op (attempts + 1) with
      | .ok r =>
        if R.returnval_predicate r then
          some ⟨.success r, attempts + 1, delays⟩
        else
          if R.stop_strategy ((attempts + 1 : Nat) : Int) (clock (attempts + 1)) then
            R.callFrom name op clock fuel (attempts + 1)
              (delays ++ [R.delay_strategy ((attempts + 1 : Nat) : Int)])
          else some ⟨.gaveUp (gaveUpMessage name (attempts + 1)), attempts + 1, delays⟩
      | .exn e =>
        match R.error_strategy with
        | none => some ⟨.raised e, attempts + 1, delays⟩
        | some should_suppress =>
          if should_suppress e then
            if R.stop_strategy ((attempts + 1 : Nat) : Int) (clock (attempts + 1)) then
              R.callFrom name op clock fuel (attempts + 1)
                (delays ++ [R.delay_strategy ((attempts + 1 : Nat) : Int)])
            else some ⟨.gaveUp (gaveUpMessage name (attempts + 1)), attempts + 1, delays⟩
          else some ⟨.raised e, attempts + 1, delays⟩ := rfl

theorem callFrom_success_sound {α ε : Type} (R : Retryer α ε) (name : String)
    (op : Nat → Outcome α ε) (clock : Nat → ℚ) :
    ∀ (fuel attempts : Nat) (delays : List ℚ) (t : CallTrace α ε) (r : α),
      R.callFrom name op clock fuel attempts delays = some t →
      t.outcome = .success r →
      attempts + 1 ≤ t.attempts ∧ op t.attempts = .ok r ∧
        R.returnval_predicate r = true := by
  intro fuel
  induction fuel with
  | zero =>
    intro attempts delays t r h hout
    rw [callFrom_zero] at h
    exact absurd h (by simp)
  | succ fuel ih =>
    intro attempts delays t r h hout
    rw [callFrom_succ] at h
    split at h
    next r' hop =>
      split at h
      next hpred =>
        rw [Option.some_inj] at h
        subst h
        obtain rfl : r' = r := by simpa using hout
        exact ⟨Nat.le_refl _, hop, hpred⟩
      next hpred =>
        split at h
        next =>
          obtain ⟨h1, h2, h3⟩ := ih _ _ _ _ h hout
          exact ⟨by omega, h2, h3⟩
        next =>
          rw [Option.some_inj] at h
          subst h
          exact absurd hout (by simp)
    next e hop =>
      split at h
      next =>
        rw [Option.some_inj] at h
        subst h
        exact absurd hout (by simp)
      next should_suppress hstrat =>
        split at h
        next =>
          split at h
          next =>
            obtain ⟨h1, h2, h3⟩ := ih _ _ _ _ h hout
            exact ⟨by omega, h2, h3⟩
          next =>
            rw [Option.some_inj] at h
            subst h
            exact absurd hout (by simp)
        next =>
          rw [Option.some_inj] at h
          subst h
          exact absurd hout (by simp)

theorem callFrom_reaches_success {α ε : Type} (R : Retryer α ε) (name : String)
    (op : Nat → Outcome α ε) (clock : Nat → ℚ) :
    ∀ (fuel attempts : Nat) (delays : List ℚ) (t : CallTrace α ε) (k : Nat) (r : α),
      R.callFrom name op clock fuel attempts delays = some t →
      attempts < k → k ≤ t.attempts →
      op k = .ok r → R.returnval_predicate r = true →
      t.outcome = .success r ∧ t.attempts = k := by
  intro fuel
  induction fuel with
  | zero =>
    intro attempts delays t k r h
    rw [callFrom_zero] at h
    exact absurd h (by simp)
  | succ fuel ih =>
    intro attempts delays t k r h hlt hle hopk hpredk
    by_cases hak : attempts + 1 = k
    · subst hak
      rw [callFrom_succ] at h
      rw [hopk] at h
      simp only [hpredk, if_true] at h
      rw [Option.some_inj] at h
      subst h
      exact ⟨rfl, rfl⟩
    · have hltk : attempts + 1 < k := by omega
      rw [callFrom_succ] at h
      split at h
      next r' hop =>
        split at h
        next =>
          rw [Option.some_inj] at h
          subst h
          have hle2 : k ≤ attempts + 1 := hle
          omega
        next =>
          split at h
          next => exact ih _ _ _ _ _ h hltk hle hopk hpredk
          next =>
            rw [Option.some_inj] at h
            subst h
            have hle2 : k ≤ attempts + 1 := hle
            omega
      next e hop =>
        split at h
        next =>
          rw [Option.some_inj] at h
          subst h
          have hle2 : k ≤ attempts + 1 := hle
          omega
        next should_suppress hstrat =>
          split at h
          next =>
            split at h
            next => exact ih _ _ _ _ _ h hltk hle hopk hpredk
            next =>
              rw [Option.some_inj] at h
              subst h
              simp only at hle
              omega
          next =>
            rw [Option.some_inj] at h
            subst h
            have hle2 : k ≤ attempts + 1 := hle
            omega

theorem callFrom_gives_up {α ε : Type} (R : Retryer α ε) (name : String)
    (op : Nat → Outcome α ε) (clock : Nat → ℚ) (m : Nat)
    (hstop : R.stop_strategy = MaxRetriesStopStrategy.should_continue ⟨(m : Int)⟩)
    (hfail : ∀ k, failedAttempt R (op k)) :
    ∀ (fuel attempts : Nat) (delays : List ℚ), attempts ≤ m →
      m + 1 - attempts ≤ fuel →
      ∃ ds, R.callFrom name op clock fuel attempts delays =
        some ⟨.gaveUp (gaveUpMessage name (m + 1)), m + 1, ds⟩ := by
  intro fuel
  induction fuel with
  | zero =>
    intro attempts delays h1 h2
    exfalso
    omega
  | succ fuel ih =>
    intro attempts delays h1 h2
    have hk := hfail (attempts + 1)
    have hcont : R.stop_strategy ((attempts + 1 : Nat) : Int) (clock (attempts + 1)) =
        decide (attempts + 1 ≤ m) := by
      rw [hstop, MaxRetriesStopStrategy.should_continue]
      simp only [decide_eq_decide]
      omega
    rw [callFrom_succ]
    cases hop : op (attempts + 1) with
    | ok r =>
      rw [hop] at hk
      simp only [failedAttempt] at hk
      dsimp only
      rw [hk, hcont]
      simp only [Bool.false_eq_true, if_false]
      by_cases hc : attempts + 1 ≤ m
      · rw [if_pos (decide_eq_true hc)]
        exact ih (attempts + 1) _ (by omega) (by omega)
      · rw [if_neg (by simp [hc])]
        have he : attempts + 1 = m + 1 := by omega
        rw [he]
        exact ⟨delays, rfl⟩
    | exn e =>
      rw [hop] at hk
      simp only [failedAttempt] at hk
      obtain ⟨f, hf, hfe⟩ := hk
      dsimp only
      rw [hf]
      dsimp only
      rw [hfe, hcont]
      simp only [if_true]
      by_cases hc : attempts + 1 ≤ m
      · rw [if_pos (decide_eq_true hc)]
        exact ih (attempts + 1) _ (by omega) (by omega)
      · rw [if_neg (by simp [hc])]
        have he : attempts + 1 = m + 1 := by omega
        rw [he]
        exact ⟨delays, rfl⟩

/-- C3: MaxRetriesStopStrategy.should_continue(attempts, elapsed) is true iff
attempts <= max_retries, and Retryer.call with that stop strategy over an
operation whose every outcome counts as a failed attempt terminates: it makes
exactly max_retries + 1 invocations and then raises GaveUpError (max_retries
of 0 permitting exactly one attempt). -/
theorem max_retries_stop_and_termination :
    (∀ (m attempts : Int) (elapsed : ℚ), 0 ≤ m →
      (MaxRetriesStopStrategy.should_continue ⟨m⟩ attempts elapsed = true ↔
        attempts ≤ m)) ∧
    (∀ (α ε : Type) (R : Retryer α ε) (m : Nat) (name : String)
        (op : Nat → Outcome α ε) (clock : Nat → ℚ) (fuel : Nat),
      R.stop_strategy = MaxRetriesStopStrategy.should_continue ⟨(m : Int)⟩ →
      (∀ k, failedAttempt R (op k)) →
      m + 1 ≤ fuel →
      ∃ ds, R.call name op clock fuel =
        some ⟨.gaveUp (gaveUpMessage name (m + 1)), m + 1, ds⟩) := by
  constructor
  · intro m attempts elapsed hm
    simp [MaxRetriesStopStrategy.should_continue]
  · intro α ε R m name op clock fuel hstop hfail hfuel
    exact callFrom_gives_up R name op clock m hstop hfail fuel 0 []
      (Nat.zero_le m) (by omega)

/-- Witness for the C3 theorem: the stop strategy at max_retries 1, and a
max_retries 0 retryer over an always-unsatisfactory operation giving up after
exactly one invocation. -/
theorem max_retries_stop_and_termination_witness :
    (MaxRetriesStopStrategy.should_continue ⟨1⟩ 1 0 = true ↔ (1 : Int) ≤ 1) ∧
      ∃ ds, Retryer.call (α := Int) (ε := String)
          { returnval_predicate := fun _ => false,
            delay_strategy := NoDelayStrategy.next_delay,
            stop_strategy := MaxRetriesStopStrategy.should_continue ⟨((0 : Nat) : Int)⟩,
            error_strategy := some SuppressAllErrorStrategy.should_suppress }
          "next_value" (fun _ => .ok 5) (fun _ => 0) 1 =
        some ⟨.gaveUp (gaveUpMessage "next_value" 1), 1, ds⟩ :=
  ⟨max_retries_stop_and_termination.1 1 1 0 (by norm_num),
    max_retries_stop_and_termination.2 Int String _ 0 "next_value" _ _ 1 rfl
      (fun k => by simp [failedAttempt]) (by norm_num)⟩

/-- C4: with the absent (None) error strategy sentinel, a raised error is
re-raised at once: at any point of the loop a raising attempt terminates the
call with that error for every configured stop strategy, with no further
attempt, no stop-strategy consultation and no delay; in particular an error
on the first attempt yields exactly one invocation and an empty delay list. -/
theorem no_error_strategy_reraises_immediately :
    ∀ (α ε : Type) (R : Retryer α ε) (name : String) (op : Nat → Outcome α ε)
      (clock : Nat → ℚ) (e : ε),
      R.error_strategy = none →
      (∀ (fuel attempts : Nat) (delays : List ℚ), op (attempts + 1) = .exn e →
        R.callFrom name op clock (fuel + 1) attempts delays =
          some ⟨.raised e, attempts + 1, delays⟩) ∧
      (op 1 = .exn e → ∀ fuel, 1 ≤ fuel →
        R.call name op clock fuel = some ⟨.raised e, 1, []⟩) := by
  intro α ε R name op clock e herr
  constructor
  · intro fuel attempts delays hop
    rw [callFrom_succ, hop]
    dsimp only
    rw [herr]
  · intro hop fuel hfuel
    obtain ⟨f, rfl⟩ : ∃ f, fuel = f + 1 := ⟨fuel - 1, by omega⟩
    rw [Retryer.call, callFrom_succ, hop]
    dsimp only
    rw [herr]

/-- Witness for the C4 theorem: a first-attempt error against a stop strategy
that would forbid even one retry is still re-raised as itself. -/
theorem no_error_strategy_reraises_immediately_witness :
    Retryer.call (α := Int) (ε := String)
        { returnval_predicate := fun _ => true,
          delay_strategy := NoDelayStrategy.next_delay,
          stop_strategy := fun _ _ => false,
          error_strategy := none }
        "next_value" (fun _ => .exn "boom") (fun _ => 0) 3 =
      some ⟨.raised "boom", 1, []⟩ :=
  (no_error_strategy_reraises_immediately Int String _ "next_value" _ _ "boom"
      rfl).2 rfl 3 (by norm_num)

theorem counter_callFrom_eval :
    ∀ (fuel attempts : Nat) (delays : List ℚ), attempts ≤ 20 →
      21 - attempts ≤ fuel →
      Retryer.callFrom (α := Int) (ε := Empty)
          { returnval_predicate := fun r => r == 20 } "next_value"
          (fun k => .ok ((k : Int) - 1)) (fun _ => 0) fuel attempts delays =
        some ⟨.success 20, 21, delays ++ List.replicate (20 - attempts) (0 : ℚ)⟩ := by
  intro fuel
  induction fuel with
  | zero =>
    intro attempts delays h1 h2
    exfalso
    omega
  | succ fuel ih =>
    intro attempts delays h1 h2
    rw [callFrom_succ]
    dsimp only
    by_cases hc : attempts = 20
    · subst hc
      rw [if_pos (by decide)]
      norm_num
    · have hpred : ¬ ((((attempts + 1 : Nat) : Int) - 1 == 20) = true) := by
        simp only [beq_iff_eq]
        push_cast
        omega
      rw [if_neg hpred]
      simp only [NeverStopStrategy.should_continue]
      rw [if_pos trivial, ih (attempts + 1) _ (by omega) (by omega)]
      have hrep : (20 - attempts) = (20 - (attempts + 1)) + 1 := by omega
      rw [hrep, List.replicate_succ]
      simp
      rfl

/-- C5: Retryer.call returns normally with value r exactly when one of the
invocations it performed returned r without raising and the predicate holds
of r — the only normal exit; and with success predicate r == 20 over an
incrementing counter starting at 0 it returns exactly 20 after exactly 21
invocations. -/
theorem call_success_characterization :
    (∀ (α ε : Type) (R : Retryer α ε) (name : String) (op : Nat → Outcome α ε)
        (clock : Nat → ℚ) (fuel : Nat) (t : CallTrace α ε) (r : α),
      R.call name op clock fuel = some t →
      (t.outcome = .success r ↔
        ∃ k, 1 ≤ k ∧ k ≤ t.attempts ∧ op k = .ok r ∧
          R.returnval_predicate r = true)) ∧
    (∀ fuel, 21 ≤ fuel →
      Retryer.call (α := Int) (ε := Empty)
          { returnval_predicate := fun r => r == 20 } "next_value"
          (fun k => .ok ((k : Int) - 1)) (fun _ => 0) fuel =
        some ⟨.success 20, 21, List.replicate 20 (0 : ℚ)⟩) := by
  constructor
  · intro α ε R name op clock fuel t r h
    constructor
    · intro hout
      obtain ⟨h1, h2, h3⟩ := callFrom_success_sound R name op clock fuel 0 [] t r h hout
      exact ⟨t.attempts, by omega, le_refl _, h2, h3⟩
    · rintro ⟨k, hk1, hk2, hk3, hk4⟩
      exact (callFrom_reaches_success R name op clock fuel 0 [] t k r h
        (by omega) hk2 hk3 hk4).1
  · intro fuel hfuel
    have h := counter_callFrom_eval fuel 0 [] (by norm_num) (by omega)
    simpa [Retryer.call] using h

/-- Witness for the C5 theorem: the incrementing-counter run itself, and the
performed invocation its success characterization extracts from that run. -/
theorem call_success_characterization_witness :
    (Retryer.call (α := Int) (ε := Empty)
        { returnval_predicate := fun r => r == 20 } "next_value"
        (fun k => .ok ((k : Int) - 1)) (fun _ => 0) 21 =
      some ⟨.success 20, 21, List.replicate 20 (0 : ℚ)⟩) ∧
    ∃ k : Nat, 1 ≤ k ∧ k ≤ 21 ∧
      (Outcome.ok (ε := Empty) ((k : Int) - 1)) = .ok 20 ∧
      ((20 : Int) == 20) = true := by
  have h2 := call_success_characterization.2 21 (by norm_num)
  refine ⟨h2, ?_⟩
  have h1 := (call_success_characterization.1 Int Empty _ "next_value" _ _ 21 _ 20
    h2).mp rfl
  simpa using h1

/-- C6 (code bug evidence): at the gave-up exit the source builds the message
with str.format over a template whose braces are doubled, so the single field
consumes the operation name and the attempt count is dropped: for operation
get_activity_gpx after 2 attempts, the message carries a literal brace pair
and the name where the count should be, and the digit 2 appears nowhere. -/
theorem gave_up_message_omits_attempt_count :
    gaveUpMessage "get_activity_gpx" 2 =
      "\x7b\x7d: gave up after get_activity_gpx failed attempt(s)" ∧
    ¬ ['2'] <:+: (gaveUpMessage "get_activity_gpx" 2).data := by
  constructor
  · decide
  · decide

/-- C9: exponential backoff yields the zero duration for non-positive n and
d * 2^(n-1) for n >= 1 — the series d, 2d, 4d, 8d — with no jitter or cap. -/
theorem exponential_backoff_delay_values :
    ∀ d : ℚ,
      (∀ n : Int, n ≤ 0 → ExponentialBackoffDelayStrategy.next_delay ⟨d⟩ n = 0) ∧
      (∀ k : Nat,
        ExponentialBackoffDelayStrategy.next_delay ⟨d⟩ ((k : Int) + 1) = d * 2 ^ k) ∧
      ExponentialBackoffDelayStrategy.next_delay ⟨d⟩ 1 = d ∧
      ExponentialBackoffDelayStrategy.next_delay ⟨d⟩ 2 = 2 * d ∧
      ExponentialBackoffDelayStrategy.next_delay ⟨d⟩ 3 = 4 * d ∧
      ExponentialBackoffDelayStrategy.next_delay ⟨d⟩ 4 = 8 * d := by
  intro d
  refine ⟨?_, ?_, ?_, ?_, ?_, ?_⟩
  · intro n hn
    simp [ExponentialBackoffDelayStrategy.next_delay, hn]
  · intro k
    rw [ExponentialBackoffDelayStrategy.next_delay, if_neg (by omega)]
    have ht : ((k : Int) + 1 - 1).toNat = k := by omega
    rw [ht]
  · rw [ExponentialBackoffDelayStrategy.next_delay, if_neg (by norm_num)]
    have ht : ((1 : Int) - 1).toNat = 0 := rfl
    rw [ht]
    ring
  · rw [ExponentialBackoffDelayStrategy.next_delay, if_neg (by norm_num)]
    have ht : ((2 : Int) - 1).toNat = 1 := rfl
    rw [ht]
    ring
  · rw [ExponentialBackoffDelayStrategy.next_delay, if_neg (by norm_num)]
    have ht : ((3 : Int) - 1).toNat = 2 := rfl
    rw [ht]
    ring
  · rw [ExponentialBackoffDelayStrategy.next_delay, if_neg (by norm_num)]
    have ht : ((4 : Int) - 1).toNat = 3 := rfl
    rw [ht]
    ring

/-- Witness for the C9 theorem: the zero branch at n = -2 with d = 3. -/
theorem exponential_backoff_delay_values_witness :
    ExponentialBackoffDelayStrategy.next_delay ⟨(3 : ℚ)⟩ (-2) = 0 :=
  (exponential_backoff_delay_values 3).1 (-2) (by norm_num)

/-- C2 (counterexample to the claim as stated): with only json_summary
requested and its fetch yielding the explicit None result, download appends
no ledger line and does write a file (a json null) for that format; and with
gpx and tcx requested, a raised error from the gpx fetch aborts the call so
tcx is never attempted even though its fetch would have succeeded. -/
theorem download_per_format_claim_counterexample :
    (download (ε := String)
        ⟨.ok none, .ok none, .ok none, .ok none, .ok none⟩
        (7, ⟨2015, 2, 17, 5, 45, 0⟩) [.json_summary]).1.ledger = [] ∧
    (download (ε := String)
        ⟨.ok none, .ok none, .ok none, .ok none, .ok none⟩
        (7, ⟨2015, 2, 17, 5, 45, 0⟩) [.json_summary]).1.files =
      [("2015-02-17T05:45:00+00:00_7_summary.json", "null")] ∧
    (download (ε := String)
        ⟨.ok (some "s"), .ok (some "d"), .error "boom", .ok (some "x"), .ok (some "y")⟩
        (7, ⟨2015, 2, 17, 5, 45, 0⟩) [.gpx, .tcx]) =
      (⟨[], []⟩, some "boom") := by
  refine ⟨by decide, by decide, by decide⟩

theorem download_fold_characterization {ε : Type} (F : RemoteFetches ε)
    (activity : Activity) (requested : List ExportFormat) :
    ∀ (fs : List ExportFormat) (st : DownloadEffect),
      (∀ f ∈ fs, StageSafe F requested f) →
      fs.foldl (downloadStep F activity requested) (st, none) =
        (⟨st.files ++ expectedWrites F activity requested fs,
          st.ledger ++ expectedLedger F activity requested fs⟩, none) := by
  intro fs
  induction fs with
  | nil =>
    intro st hsafe
    simp [expectedWrites, expectedLedger]
  | cons f fs ih =>
    intro st hsafe
    have hf := hsafe f (List.mem_cons_self f fs)
    have hfs : ∀ g ∈ fs, StageSafe F requested g :=
      fun g hg => hsafe g (List.mem_cons_of_mem f hg)
    rw [List.foldl_cons, expectedWrites, expectedLedger]
    by_cases hmem : f ∈ requested
    · cases f with
      | json_summary =>
        obtain ⟨v, hv⟩ := hf hmem (by decide)
        have hv2 : F.fetchOf ExportFormat.json_summary = .ok v := hv
        rcases v with _ | x <;>
          (simp only [downloadStep, writeChunk, ledgerChunk]
           rw [hv2]
           simp only [hmem, if_true, DownloadEffect.write]
           rw [ih _ hfs]
           simp [List.append_assoc])
      | json_details =>
        rcases hv : F.details with e | v
        · have hv2 : F.fetchOf ExportFormat.json_details = .error e := hv
          simp only [downloadStep, writeChunk, ledgerChunk]
          rw [hv2]
          simp only [hmem, if_true]
          rw [ih _ hfs]
          simp [List.append_assoc]
        · have hv2 : F.fetchOf ExportFormat.json_details = .ok v := hv
          rcases v with _ | x <;>
            (simp only [downloadStep, writeChunk, ledgerChunk]
             rw [hv2]
             simp only [hmem, if_true, DownloadEffect.write]
             rw [ih _ hfs]
             simp [List.append_assoc])
      | gpx =>
        obtain ⟨v, hv⟩ := hf hmem (by decide)
        have hv2 : F.fetchOf ExportFormat.gpx = .ok v := hv
        rcases v with _ | x <;>
          (simp only [downloadStep, writeChunk, ledgerChunk]
           rw [hv2]
           simp only [hmem, if_true, DownloadEffect.write, DownloadEffect.addLedger]
           rw [ih _ hfs]
           simp [List.append_assoc])
      | tcx =>
        obtain ⟨v, hv⟩ := hf hmem (by decide)
        have hv2 : F.fetchOf ExportFormat.tcx = .ok v := hv
        rcases v with _ | x <;>
          (simp only [downloadStep, writeChunk, ledgerChunk]
           rw [hv2]
           simp only [hmem, if_true, DownloadEffect.write, DownloadEffect.addLedger]
           rw [ih _ hfs]
           simp [List.append_assoc])
      | fit =>
        obtain ⟨v, hv⟩ := hf hmem (by decide)
        have hv2 : F.fetchOf ExportFormat.fit = .ok v := hv
        rcases v with _ | x <;>
          (simp only [downloadStep, writeChunk, ledgerChunk]
           rw [hv2]
           simp only [hmem, if_true, DownloadEffect.write, DownloadEffect.addLedger]
           rw [ih _ hfs]
           simp [List.append_assoc])
    · simp only [downloadStep, hmem, if_false]
      rw [ih _ hfs]
      simp [writeChunk, ledgerChunk, hmem]

theorem expectedLedger_eq_filter {ε : Type} (F : RemoteFetches ε) (a : Activity)
    (req : List ExportFormat) :
    ∀ fs : List ExportFormat,
      expectedLedger F a req fs =
        (fs.filter (fun f => decide (f ∈ req) && decide (f ∈ file_export_formats) &&
          isNotAvailable (F.fetchOf f))).map (fun f => export_filename a f) := by
  intro fs
  induction fs with
  | nil => rfl
  | cons f fs ih =>
    rw [expectedLedger, List.filter_cons]
    by_cases hmem : f ∈ req
    · cases f <;>
        rcases hv : F.fetchOf _ with e | v <;>
        first
        | (rcases v with _ | x <;>
            simp [ledgerChunk, hmem, hv, isNotAvailable, file_export_formats, ih])
        | simp [ledgerChunk, hmem, hv, isNotAvailable, file_export_formats, ih]
    · simp [ledgerChunk, hmem, ih]

theorem mem_expectedWrites_of_file {ε : Type} (F : RemoteFetches ε) (a : Activity)
    (req : List ExportFormat) :
    ∀ (fs : List ExportFormat) (f : ExportFormat) (x : String),
      f ∈ fs → f ∈ req → f ∈ file_export_formats → F.fetchOf f = .ok (some x) →
      (export_filename a f, x) ∈ expectedWrites F a req fs := by
  intro fs
  induction fs with
  | nil =>
    intro f x hmem
    simp at hmem
  | cons g fs ih =>
    intro f x hmem hreq hfile hv
    rw [expectedWrites]
    rcases List.mem_cons.mp hmem with rfl | htail
    · simp only [file_export_formats, List.mem_cons, List.not_mem_nil, or_false] at hfile
      rcases hfile with rfl | rfl | rfl <;>
        (apply List.mem_append_left
         rw [writeChunk.eq_def, if_pos hreq, hv]
         simp)
    · exact List.mem_append_right _ (ih f x htail hreq hfile hv)

theorem expectedWrites_name_mem {ε : Type} (F : RemoteFetches ε) (a : Activity)
    (req : List ExportFormat) :
    ∀ (fs : List ExportFormat) (n c : String),
      (n, c) ∈ expectedWrites F a req fs →
      ∃ f ∈ fs, n = export_filename a f ∧
        (f ∈ file_export_formats → isNotAvailable (F.fetchOf f) = false) := by
  intro fs
  induction fs with
  | nil =>
    intro n c h
    simp [expectedWrites] at h
  | cons f fs ih =>
    intro n c h
    rw [expectedWrites] at h
    rcases List.mem_append.mp h with h1 | h2
    · refine ⟨f, List.mem_cons_self f fs, ?_⟩
      by_cases hmem : f ∈ req
      · rw [writeChunk.eq_def, if_pos hmem] at h1
        cases f <;>
          rcases hv : F.fetchOf _ with e | v <;>
          rw [hv] at h1 <;>
          first
          | (rcases v with _ | x <;>
              simp_all [isNotAvailable, file_export_formats])
          | simp_all [isNotAvailable, file_export_formats]
      · rw [writeChunk.eq_def, if_neg hmem] at h1
        simp at h1
    · obtain ⟨g, hg, h3, h4⟩ := ih n c h2
      exact ⟨g, List.mem_cons_of_mem f hg, h3, h4⟩

theorem filter_file_formats_eq {ε : Type} (F : RemoteFetches ε) (a : Activity)
    (req : List ExportFormat) :
    (export_formats.filter (fun f => decide (f ∈ req) &&
        decide (f ∈ file_export_formats) && isNotAvailable (F.fetchOf f))).map
      (fun f => export_filename a f) =
    (file_export_formats.filter (fun f => decide (f ∈ req) &&
        isNotAvailable (F.fetchOf f))).map (fun f => export_filename a f) := by
  simp [export_formats, file_export_formats, List.filter_cons]

/-- C2 (amended): in download, for the three file formats gpx, tcx and fit —
provided the stages that can propagate an error (json_summary and the file
formats) return rather than raise — no failure is raised, the .not_found
ledger receives exactly one line with the canonical file name of each
requested file format whose fetch yielded the explicit not-available None
result (in source order), every requested file format whose fetch returned a
payload still has its file written (one stage's None never blocks another),
and no file is written for a not-available file format. json_details may
raise freely: its error is caught and does not block later formats. (As
stated, the claim fails for json_summary and json_details — a None there is
serialized to a json null file with no ledger line — and a raised error in
json_summary, gpx or tcx aborts the remaining formats.) -/
theorem download_file_formats_not_found_ledger :
    ∀ (ε : Type) (F : RemoteFetches ε) (activity : Activity)
      (requested : List ExportFormat),
      activity.2.Valid →
      (ExportFormat.json_summary ∈ requested → ∃ v, F.summary = .ok v) →
      (∃ v, F.gpx = .ok v) → (∃ v, F.tcx = .ok v) → (∃ v, F.fit = .ok v) →
      (download F activity requested).2 = none ∧
      (download F activity requested).1.ledger =
        (file_export_formats.filter
          (fun f => decide (f ∈ requested) && isNotAvailable (F.fetchOf f))).map
          (fun f => export_filename activity f) ∧
      (∀ (f : ExportFormat) (x : String), f ∈ file_export_formats → f ∈ requested →
        F.fetchOf f = .ok (some x) →
        (export_filename activity f, x) ∈ (download F activity requested).1.files) ∧
      (∀ f : ExportFormat, f ∈ file_export_formats →
        isNotAvailable (F.fetchOf f) = true →
        ∀ c, (export_filename activity f, c) ∉ (download F activity requested).1.files) := by
  intro ε F activity requested hval hs hg ht hf
  have hsafe : ∀ f ∈ export_formats, StageSafe F requested f := by
    intro f hfm
    cases f with
    | json_summary => intro hm hne; exact hs hm
    | json_details => intro hm hne; exact absurd rfl hne
    | gpx => intro hm hne; exact hg
    | tcx => intro hm hne; exact ht
    | fit => intro hm hne; exact hf
  have hchar := download_fold_characterization F activity requested export_formats
    ⟨[], []⟩ hsafe
  have hdl : download F activity requested =
      (⟨expectedWrites F activity requested export_formats,
        expectedLedger F activity requested export_formats⟩, none) := by
    rw [download, hchar]
    simp
  refine ⟨by rw [hdl], ?_, ?_, ?_⟩
  · rw [hdl]
    rw [show (⟨expectedWrites F activity requested export_formats,
        expectedLedger F activity requested export_formats⟩ : DownloadEffect).ledger =
      expectedLedger F activity requested export_formats from rfl]
    rw [expectedLedger_eq_filter F activity requested export_formats]
    exact filter_file_formats_eq F activity requested
  · intro f x hfile hreq hv
    rw [hdl]
    have hall : ∀ g : ExportFormat, g ∈ file_export_formats → g ∈ export_formats := by
      decide
    exact mem_expectedWrites_of_file F activity requested export_formats f x
      (hall f hfile) hreq hfile hv
  · intro f hfile hna c hmemc
    rw [hdl] at hmemc
    obtain ⟨g, hgmem, heq, himpl⟩ :=
      expectedWrites_name_mem F activity requested export_formats _ _ hmemc
    obtain ⟨-, rfl⟩ := export_filename_inj hval hval heq
    rw [himpl hfile] at hna
    exact Bool.false_ne_true hna

/-- Witness for the amended C2 theorem: all five formats requested, gpx and
fit not available, json_details raising — the run raises nothing, the ledger
gets exactly the gpx and fit canonical names, and the tcx file is written. -/
theorem download_file_formats_not_found_ledger_witness :
    (download (ε := String)
        ⟨.ok (some "s"), .error "bad", .ok none, .ok (some "x"), .ok none⟩
        (7, ⟨2015, 2, 17, 5, 45, 0⟩) export_formats).2 = none ∧
    (download (ε := String)
        ⟨.ok (some "s"), .error "bad", .ok none, .ok (some "x"), .ok none⟩
        (7, ⟨2015, 2, 17, 5, 45, 0⟩) export_formats).1.ledger =
      ["2015-02-17T05:45:00+00:00_7.gpx", "2015-02-17T05:45:00+00:00_7.fit"] ∧
    ("2015-02-17T05:45:00+00:00_7.tcx", "x") ∈
      (download (ε := String)
        ⟨.ok (some "s"), .error "bad", .ok none, .ok (some "x"), .ok none⟩
        (7, ⟨2015, 2, 17, 5, 45, 0⟩) export_formats).1.files := by
  have h := download_file_formats_not_found_ledger String
    ⟨.ok (some "s"), .error "bad", .ok none, .ok (some "x"), .ok none⟩
    (7, ⟨2015, 2, 17, 5, 45, 0⟩) export_formats (by decide)
    (fun _ => ⟨some "s", rfl⟩) ⟨none, rfl⟩ ⟨some "x", rfl⟩ ⟨none, rfl⟩
  refine ⟨h.1, ?_, ?_⟩
  · rw [h.2.1]
    decide
  · have := h.2.2.1 .tcx "x" (by decide) (by decide) rfl
    simpa using this

/-- C10: every remote operation guarded by require_session — list_activities,
get_activity_summary, get_activity_details, get_activity_gpx,
get_activity_tcx, upload_activity — invoked on a client whose session is
unset raises the guard error immediately: the request trace is empty, so no
remote request was issued, and the client value is untouched (operations
never mutate it); and with a session present (connect succeeded, disconnect
not called) the guard is transparent, so its error branch is unreachable. -/
theorem require_session_guard :
    (∀ (client : GarminClient) (remote : Request → Response),
      client.session = none →
      (∀ aid : Nat,
        get_activity_summary client aid remote = ([], .error session_error_msg) ∧
        get_activity_details client aid remote = ([], .error session_error_msg) ∧
        get_activity_gpx client aid remote = ([], .error session_error_msg) ∧
        get_activity_tcx client aid remote = ([], .error session_error_msg)) ∧
      list_activities client remote = ([], .error session_error_msg) ∧
      (∀ (file : UploadFile) (format name description activity_type : Option String)
          (privateFlag : Bool),
        upload_activity client file format name description activity_type
          privateFlag remote = ([], .error session_error_msg))) ∧
    (∀ (α : Type) (f : GarminClient → ClientM α) (client : GarminClient)
        (s : Session) (remote : Request → Response),
      client.session = some s →
      require_session f client remote = f client remote) := by
  have hguard : ∀ (α : Type) (f : GarminClient → ClientM α) (client : GarminClient)
      (remote : Request → Response), client.session = none →
      require_session f client remote = ([], .error session_error_msg) := by
    intro α f client remote hsess
    simp only [require_session, hsess, session_error_msg]
  constructor
  · intro client remote hsess
    exact ⟨fun aid => ⟨hguard _ _ _ _ hsess, hguard _ _ _ _ hsess,
        hguard _ _ _ _ hsess, hguard _ _ _ _ hsess⟩,
      hguard _ _ _ _ hsess,
      fun file format name description activity_type privateFlag =>
        hguard _ _ _ _ hsess⟩
  · intro α f client s remote hsess
    simp only [require_session, hsess]

/-- Witness for the C10 theorem: a freshly constructed (never connected)
client is rejected by the gpx export guard with an empty request trace, and
after a connect the guard is transparent. -/
theorem require_session_guard_witness :
    (get_activity_gpx (GarminClient.mkNew "u" "p") 5
        (fun _ => ⟨200, "t", [], none, none⟩) =
      ([], .error session_error_msg)) ∧
    (require_session (get_activity_gpx_body 5)
        ((GarminClient.mkNew "u" "p").connect ⟨1⟩)
        (fun _ => ⟨200, "t", [], none, none⟩) =
      get_activity_gpx_body 5 ((GarminClient.mkNew "u" "p").connect ⟨1⟩)
        (fun _ => ⟨200, "t", [], none, none⟩)) :=
  ⟨((require_session_guard.1 (GarminClient.mkNew "u" "p")
      (fun _ => ⟨200, "t", [], none, none⟩) rfl).1 5).2.2.1,
    require_session_guard.2 (Option String) (get_activity_gpx_body 5)
      ((GarminClient.mkNew "u" "p").connect ⟨1⟩) ⟨1⟩
      (fun _ => ⟨200, "t", [], none, none⟩) rfl⟩

